import Mathlib

/-!
Verification of the INSECT-DETECTION-LLM repository.

This file gives a shallow embedding of the three Python source files
(`insect.py` — the live capture loop, `oledandled.py` — the GPIO/I2C
peripheral wrapper, `Llm.py` — the log-browsing GUI) and proves the
specification claims about them.

Modelling conventions:
* Python floats are modelled as rationals (`ℚ`); the only genuinely real
  operation, `np.sqrt` in the speed estimate, is modelled with `Real.sqrt`
  and the stored speed value lives in `ℝ`.
* Python dicts keyed by labels are modelled as functions
  `SpLabel → Option _`; JSON dicts keyed by strings are association lists
  with Python's insert-or-overwrite-in-place semantics (`dictInsert`).
* `round(x, n)` is Python's round-half-to-even on rationals,
  `//` is `Int.fdiv` (floor division), `int(...)` truncates toward zero.
-/

namespace InsectDetection

/-- Python `round` to an integer: round half to even (banker's rounding),
modelled on rationals. -/
def roundHalfEven (q : ℚ) : ℤ :=
  if q - (⌊q⌋ : ℚ) < 1/2 then ⌊q⌋
  else if (1 : ℚ)/2 < q - (⌊q⌋ : ℚ) then ⌊q⌋ + 1
  else if ⌊q⌋ % 2 = 0 then ⌊q⌋ else ⌊q⌋ + 1

/-- Python `round(q, n)`: round to `n` decimal digits. -/
def pyRound (q : ℚ) (n : ℕ) : ℚ :=
  (roundHalfEven (q * 10 ^ n) : ℚ) / 10 ^ n

/-! ### Data model of `insect.py` -/

/-- The two insect classes the loop keeps (`CLASS_LABELS = {2: "fly", 3: "Cockroach"}`);
detections with other labels are discarded before any bookkeeping. -/
inductive SpLabel where
  | fly
  | cockroach
deriving DecidableEq

def MIN_BOX_SIZE : ℤ := 10

/-- `REAL_WIDTHS_M = {"fly": 0.08, "Cockroach": 0.08}`. -/
def REAL_WIDTHS_M : SpLabel → ℚ := fun _ => 8/100

def FOCAL_LENGTH_PIXELS : ℚ := 1200

def RADAR_SIZE : ℤ := 300

def RADAR_RANGE_M : ℚ := 1

def MAX_TRAIL : ℕ := 30

/-- `get_distance_meters` from `insect.py`. -/
def get_distance_meters (width_px real_width_m focal_px : ℚ) : ℚ :=
  if width_px ≤ 0 ∨ focal_px ≤ 0 ∨ real_width_m ≤ 0 then 0
  else (real_width_m * focal_px) / width_px

/-- One detection tuple `(x1, y1, x2, y2, label, distance_m, conf)` as built by the
YOLO post-processing stage of the main loop. -/
structure Detection where
  x1 : ℤ
  y1 : ℤ
  x2 : ℤ
  y2 : ℤ
  label : SpLabel
  distance_m : ℚ
  conf : ℚ
deriving DecidableEq

/-- Builds the detection tuple the way the main loop does:
`distance_m = get_distance_meters(float(w), REAL_WIDTHS_M[label], FOCAL_LENGTH_PIXELS)`. -/
def detectionOf (x1 y1 x2 y2 : ℤ) (label : SpLabel) (conf : ℚ) : Detection :=
  { x1 := x1, y1 := y1, x2 := x2, y2 := y2, label := label,
    distance_m := get_distance_meters ((x2 - x1 : ℤ) : ℚ) (REAL_WIDTHS_M label)
      FOCAL_LENGTH_PIXELS,
    conf := conf }

/-- `cx, cy = (x1+x2)//2, (y1+y2)//2` (Python floor division). -/
def centerOf (d : Detection) : ℤ × ℤ := ((d.x1 + d.x2).fdiv 2, (d.y1 + d.y2).fdiv 2)

/-- `angle_deg = (cx / frame.shape[1]) * 180.0`. -/
def angleOf (frameW : ℚ) (d : Detection) : ℚ := (((centerOf d).1 : ℚ) / frameW) * 180

/-- Python `int(...)`: truncation toward zero. -/
def truncQ (q : ℚ) : ℤ := if 0 ≤ q then ⌊q⌋ else ⌈q⌉

/-- One value of `speed_tracker[label] = (cx, cy, t, speed)`. -/
structure SpeedEntry where
  px : ℤ
  py : ℤ
  t : ℚ
  speed : ℝ

/-- One value of `species_summary[label]`. -/
structure SpeciesInfo where
  count : ℕ
  entry_angle_deg : ℚ
  exit_angle_deg : ℚ
  entry_distance_m : ℚ
  exit_distance_m : ℚ
deriving DecidableEq

/-- The `nearest_encounter` record; `distance_m = none` models the initial
`float('inf')`, the other fields model the initial `None`s. -/
structure NearestEnc where
  distance_m : Option ℚ
  frame : Option ℕ
  label : Option SpLabel
  angle_deg : Option ℚ
deriving DecidableEq

/-- One per-label value written by `save_species_summary_to_json`. -/
structure SnapEntry where
  start_distance_m : ℚ
  end_distance_m : ℚ
  start_angle_deg : ℚ
  end_angle_deg : ℚ
  count : ℕ
deriving DecidableEq

/-- The mutable per-run dictionaries of the main loop. -/
structure LoopState where
  speed_tracker : SpLabel → Option SpeedEntry
  species_summary : SpLabel → Option SpeciesInfo
  nearest_encounter : NearestEnc
  trajectories : SpLabel → Option (List (ℤ × ℤ))
  prev_centers : SpLabel → Option (ℤ × ℤ)

/-- The speed-tracker update of the main loop: on a known label with positive
elapsed time `dt = now - pt` store the Euclidean pixel-delta speed
`(dist_px * 0.02) / dt`; on an unknown label store speed `0.0`; otherwise leave
the tracker untouched. -/
noncomputable def speedUpdate (tr : SpLabel → Option SpeedEntry) (l : SpLabel)
    (cx cy : ℤ) (now : ℚ) : SpLabel → Option SpeedEntry :=
  match tr l with
  | some e =>
      if e.t < now then
        fun l2 => if l2 = l then
          some { px := cx, py := cy, t := now,
                 speed := Real.sqrt (((cx - e.px : ℤ) : ℝ) ^ 2 + ((cy - e.py : ℤ) : ℝ) ^ 2)
                   * 0.02 / ((now - e.t : ℚ) : ℝ) }
          else tr l2
      else tr
  | none => fun l2 => if l2 = l then some { px := cx, py := cy, t := now, speed := 0 } else tr l2

/-- The `species_summary` update of the main loop: create the entry on first
sight, then increment `count` and refresh the `exit_*` fields. -/
def summaryUpdate (ss : SpLabel → Option SpeciesInfo) (l : SpLabel)
    (angle_deg distance_m : ℚ) : SpLabel → Option SpeciesInfo :=
  let info := (ss l).getD
    { count := 0, entry_angle_deg := pyRound angle_deg 1, exit_angle_deg := pyRound angle_deg 1,
      entry_distance_m := pyRound distance_m 2, exit_distance_m := pyRound distance_m 2 }
  fun l2 =>
    if l2 = l then
      some { info with
             count := info.count + 1
             exit_angle_deg := pyRound angle_deg 1
             exit_distance_m := pyRound distance_m 2 }
    else ss l2

/-- The `nearest_encounter` update: overwrite the record whenever the raw
distance is strictly below the stored (already rounded) distance. -/
def nearestUpdate (ne : NearestEnc) (fid : ℕ) (l : SpLabel)
    (distance_m angle_deg : ℚ) : NearestEnc :=
  let doUpdate := match ne.distance_m with
    | none => true
    | some v => decide (distance_m < v)
  if doUpdate then
    { distance_m := some (pyRound distance_m 3), frame := some fid,
      label := some l, angle_deg := some (pyRound angle_deg 1) }
  else ne

def RADAR_MAX_R : ℤ := RADAR_SIZE.fdiv 2 - 20

/-- The radar point `(x, y)` appended to a label's trail. -/
def trailPoint (frameW : ℚ) (d : Detection) : ℤ × ℤ :=
  let cx := (centerOf d).1
  let norm_x : ℚ := (cx : ℚ) / frameW - 1/2
  let r_px : ℤ :=
    truncQ (min ((d.distance_m / RADAR_RANGE_M) * (RADAR_MAX_R : ℚ)) (RADAR_MAX_R : ℚ))
  let x : ℤ := truncQ ((RADAR_SIZE.fdiv 2 : ℤ) + norm_x * (RADAR_MAX_R : ℚ))
  (x, RADAR_SIZE.fdiv 2 - r_px)

/-- Appending to a `deque(maxlen=maxlen)`: add on the right, discard from the
left anything beyond `maxlen`. -/
def dequeAppend {α : Type} (maxlen : ℕ) (l : List α) (p : α) : List α :=
  let l2 := l ++ [p]
  l2.drop (l2.length - maxlen)

/-- The trajectory-trail update of the main loop. -/
def trajUpdate (tj : SpLabel → Option (List (ℤ × ℤ))) (l : SpLabel) (pt : ℤ × ℤ) :
    SpLabel → Option (List (ℤ × ℤ)) :=
  fun l2 => if l2 = l then some (dequeAppend MAX_TRAIL ((tj l).getD []) pt) else tj l2

/-- Processing of one detection inside the per-frame loop of `insect.py`
(lines 188–250): speed tracking, species summary, nearest encounter,
previous-centre bookkeeping and trajectory trail. -/
noncomputable def detStep (frameW : ℚ) (fid : ℕ) (now : ℚ) (s : LoopState) (d : Detection) :
    LoopState :=
  let cx := (centerOf d).1
  let cy := (centerOf d).2
  let angle := angleOf frameW d
  { speed_tracker := speedUpdate s.speed_tracker d.label cx cy now,
    species_summary := summaryUpdate s.species_summary d.label angle d.distance_m,
    nearest_encounter := nearestUpdate s.nearest_encounter fid d.label d.distance_m angle,
    trajectories := trajUpdate s.trajectories d.label (trailPoint frameW d),
    prev_centers := fun l2 => if l2 = d.label then some (cx, cy) else s.prev_centers l2 }

/-- The "Remove missing insects" block: drop trails, previous centres and speed
entries of labels not present in the current frame. `species_summary` and
`nearest_encounter` are never pruned. -/
def prune (s : LoopState) (dets : List Detection) : LoopState :=
  { s with
    trajectories := fun l => if dets.any (fun d => d.label == l) then s.trajectories l else none,
    prev_centers := fun l => if dets.any (fun d => d.label == l) then s.prev_centers l else none,
    speed_tracker := fun l => if dets.any (fun d => d.label == l) then s.speed_tracker l else none }

/-- One successfully captured camera frame: its surviving detections and the
`time.time()` value `now` observed while processing it. -/
structure Frame where
  dets : List Detection
  time : ℚ

/-- The per-label dict written by `save_species_summary_to_json` (the `.get`
defaults are never used since `species_summary` entries always carry all keys). -/
def snapEntryOf (info : SpeciesInfo) : SnapEntry :=
  { start_distance_m := pyRound info.entry_distance_m 2,
    end_distance_m := pyRound info.exit_distance_m 2,
    start_angle_deg := pyRound info.entry_angle_deg 1,
    end_angle_deg := pyRound info.exit_angle_deg 1,
    count := info.count }

def Snapshot : Type := SpLabel → Option SnapEntry

def snapshotOf (ss : SpLabel → Option SpeciesInfo) : Snapshot :=
  fun l => (ss l).map snapEntryOf

/-- A top-level value of the JSON log `insect_log2.json`: a timestamped
snapshot, the reserved nearest-encounter record, or pre-existing foreign data. -/
inductive LogVal where
  | snap (s : Snapshot)
  | nearest (ne : NearestEnc)
  | other

/-- Python dict assignment `d[k] = v` on an association list (the lists we
build are duplicate-free, as Python dicts are): overwrite in place when the
key exists, append otherwise. -/
def dictInsert {α : Type} : List (String × α) → String → α → List (String × α)
  | [], k, v => [(k, v)]
  | p :: rest, k, v => if p.1 = k then (k, v) :: rest else p :: dictInsert rest k v

/-- The whole mutable state of a run: loop dictionaries, `frame_id`, the JSON
dict `json_data`, and the trace of `save_species_summary_to_json` calls
(each recorded with the `frame_id` at which it happened). -/
structure RunState where
  state : LoopState
  fid : ℕ
  json : List (String × LogVal)
  saves : List (ℕ × Snapshot)

/-- One iteration of the `while True` capture loop for a captured frame:
process every detection, prune missing labels, increment `frame_id`, and
serialize a snapshot when `frame_id % 30 == 0`. `ts` supplies the external
`datetime.now().isoformat()` timestamps. -/
noncomputable def frameStep (frameW : ℚ) (ts : ℕ → String) (r : RunState) (f : Frame) :
    RunState :=
  let s1 := f.dets.foldl (detStep frameW r.fid f.time) r.state
  let s2 := prune s1 f.dets
  let fid2 := r.fid + 1
  if fid2 % 30 = 0 then
    let snap := snapshotOf s2.species_summary
    { state := s2, fid := fid2, json := dictInsert r.json (ts fid2) (LogVal.snap snap),
      saves := r.saves ++ [(fid2, snap)] }
  else
    { state := s2, fid := fid2, json := r.json, saves := r.saves }

def initState : LoopState :=
  { speed_tracker := fun _ => none, species_summary := fun _ => none,
    nearest_encounter := { distance_m := none, frame := none, label := none, angle_deg := none },
    trajectories := fun _ => none, prev_centers := fun _ => none }

/-- The capture loop run on the list of captured frames (frames for which
`capture_array` returned `None` are skipped by the loop before any state
change, so they do not appear here). `log0` is the pre-existing content of
`insect_log2.json`. -/
noncomputable def runLoop (frameW : ℚ) (ts : ℕ → String) (log0 : List (String × LogVal))
    (fs : List Frame) : RunState :=
  fs.foldl (frameStep frameW ts) { state := initState, fid := 0, json := log0, saves := [] }

/-- The `finally` block: one final snapshot (under a fresh timestamp `tsf`)
followed by `json_data["nearest_encounter"] = nearest_encounter`. -/
def finalizeRun (tsf : String) (r : RunState) : RunState :=
  let snap := snapshotOf r.state.species_summary
  { r with
    json := dictInsert (dictInsert r.json tsf (LogVal.snap snap)) "nearest_encounter"
      (LogVal.nearest r.state.nearest_encounter),
    saves := r.saves ++ [(r.fid, snap)] }

/-- The whole program: the capture loop followed by the `finally` block. -/
noncomputable def runProgram (frameW : ℚ) (ts : ℕ → String) (tsf : String)
    (log0 : List (String × LogVal)) (fs : List Frame) : RunState :=
  finalizeRun tsf (runLoop frameW ts log0 fs)

/-! ### Specification-side functions used to state the claims -/

def minQStep (acc : Option ℚ) (d : ℚ) : Option ℚ :=
  match acc with
  | none => some d
  | some m => some (min m d)

/-- The minimum of a list of rationals, `none` on the empty list. -/
def minQ (ds : List ℚ) : Option ℚ := ds.foldl minQStep none

/-- All raw detection distances of a run, in processing order. -/
def allDistances : List Frame → List ℚ
  | [] => []
  | f :: fs => f.dets.map Detection.distance_m ++ allDistances fs

/-- All detections of a given label, in processing order. -/
def labelDets : List Frame → SpLabel → List Detection
  | [], _ => []
  | f :: fs, l => f.dets.filter (fun d => d.label == l) ++ labelDets fs l

/-- Closed-form content of `species_summary[l]` after a list of detections of
label `l`: count of detections, rounded first-detection values as `entry_*`,
rounded last-detection values as `exit_*`. -/
def summarySpec (frameW : ℚ) (ds : List Detection) : Option SpeciesInfo :=
  match ds with
  | [] => none
  | d :: rest =>
      some { count := rest.length + 1,
             entry_angle_deg := pyRound (angleOf frameW d) 1,
             exit_angle_deg := pyRound (angleOf frameW (rest.getLastD d)) 1,
             entry_distance_m := pyRound d.distance_m 2,
             exit_distance_m := pyRound (rest.getLastD d).distance_m 2 }

/-- Closed-form content of a saved snapshot for one label, following the spec's
schema sentence: the five fields, with `count` the number of detections,
`start_*` the rounded first detection and `end_*` the rounded last one. -/
def snapSpec (frameW : ℚ) (ds : List Detection) : Option SnapEntry :=
  match ds with
  | [] => none
  | d :: rest =>
      some { start_distance_m := pyRound d.distance_m 2,
             end_distance_m := pyRound (rest.getLastD d).distance_m 2,
             start_angle_deg := pyRound (angleOf frameW d) 1,
             end_angle_deg := pyRound (angleOf frameW (rest.getLastD d)) 1,
             count := rest.length + 1 }

/-- Order on stored nearest distances, `none` playing `float('inf')`. -/
def nearestLe : Option ℚ → Option ℚ → Prop
  | _, none => True
  | none, some _ => False
  | some a, some b => a ≤ b

/-! Sample values used by the witness theorems. -/

def sampleEntry : SpeedEntry := { px := 0, py := 0, t := 0, speed := 0 }

def sampleTrackedState : LoopState :=
  { initState with speed_tracker := fun _ => some sampleEntry }

def sampleDet : Detection :=
  { x1 := 0, y1 := 0, x2 := 300, y2 := 20, label := SpLabel.fly, distance_m := 2, conf := 1 }

def tsSample : ℕ → String := fun _ => "2025-01-01T00:00:00"

end InsectDetection

namespace OledAndLed

/-! ### Data model of `oledandled.py` -/

def RED_LED : ℕ := 17

def YELLOW_LED : ℕ := 27

def GREEN_LED : ℕ := 22

/-- A device/system operation performed by the peripheral wrapper. The
`oled*` constructors are the I2C display operations; `drawText` is the pure
PIL drawing into the in-memory image; `consolePrint` is the fallback print. -/
inductive DevOp where
  | gpioWrite (pin : ℕ) (val : ℕ)
  | oledFill (v : ℕ)
  | oledShow
  | oledImage
  | drawText (y : ℕ) (line : String)
  | consolePrint
deriving DecidableEq

/-- Python truthiness of the `lgpio` chip handle: `None` and handle `0` are
both falsy under `if chip:`. -/
def truthyChip : Option ℤ → Bool
  | none => false
  | some h => h != 0

/-- `reset_leds`: the trace of operations it performs. With no chip it
performs none (and hence cannot raise from an `lgpio` call). -/
def reset_leds (chip : Option ℤ) : List DevOp :=
  if truthyChip chip then
    [DevOp.gpioWrite RED_LED 0, DevOp.gpioWrite YELLOW_LED 0, DevOp.gpioWrite GREEN_LED 0]
  else []

/-- `display_on_oled`: the trace of operations it performs for a given list of
text lines. With no OLED it only prints (and cannot raise from an I2C call). -/
def display_on_oled (oled : Option Unit) (lines : List String) : List DevOp :=
  match oled with
  | some _ =>
      [DevOp.oledFill 0, DevOp.oledShow]
        ++ (lines.take 5).enum.map (fun p => DevOp.drawText (p.1 * 12) p.2)
        ++ [DevOp.oledImage, DevOp.oledShow]
  | none => [DevOp.consolePrint]

def isI2cOp : DevOp → Bool
  | DevOp.oledFill _ => true
  | DevOp.oledShow => true
  | DevOp.oledImage => true
  | _ => false

def isGpioWrite : DevOp → Bool
  | DevOp.gpioWrite _ _ => true
  | _ => false

end OledAndLed

namespace LlmGui

/-! ### Data model of `Llm.py` -/

open InsectDetection (dictInsert)

def DEFAULT_VIDEO : String := "/home/aaswat/insects/insect_detection_output.avi"

/-- JSON values. -/
inductive JVal where
  | jnull
  | jbool (b : Bool)
  | jnum (q : ℚ)
  | jstr (s : String)
  | jarr (items : List JVal)
  | jobj (fields : List (String × JVal))

/-- What `load_sessions` finds at `LOG_PATH`: no file, a file whose contents
fail to parse as JSON, or a parsed JSON value. -/
inductive LogFile where
  | missing
  | unparsable
  | parsed (v : JVal)

/-- The session built for one top-level key: `sess = data.copy()`, then
`sess["session_info"] = {"session_id": ts, "timestamp": ts}` and
`sess["video_reference"] = DEFAULT_VIDEO`. -/
def sessionOf (ts : String) (data : List (String × JVal)) : List (String × JVal) :=
  dictInsert
    (dictInsert data "session_info"
      (JVal.jobj [("session_id", JVal.jstr ts), ("timestamp", JVal.jstr ts)]))
    "video_reference" (JVal.jstr DEFAULT_VIDEO)

/-- The `for ts, data in raw.items()` loop; `none` models the exception raised
on the first value that is not a dict (no usable `.copy()` / item assignment),
which the surrounding `except` turns into `[]`. -/
def buildSessions : List (String × JVal) → Option (List (List (String × JVal)))
  | [] => some []
  | (ts, JVal.jobj data) :: rest => (buildSessions rest).map (fun ss => sessionOf ts data :: ss)
  | _ => none

/-- `load_sessions` from `Llm.py`. -/
def load_sessions (file : LogFile) : List (List (String × JVal)) :=
  match file with
  | LogFile.missing => []
  | LogFile.unparsable => []
  | LogFile.parsed (JVal.jobj fields) => (buildSessions fields).getD []
  | LogFile.parsed _ => []

/-- A top-level log key that is a timestamped snapshot rather than the
reserved nearest-encounter record. -/
def isSnapshotKey (k : String) : Bool := k != "nearest_encounter"

def isObjVal : JVal → Bool
  | JVal.jobj _ => true
  | _ => false

def objFieldsOf : JVal → List (String × JVal)
  | JVal.jobj fs => fs
  | _ => []

end LlmGui

/-! ## Theorems -/

namespace InsectDetection

theorem roundHalfEven_intCast (k : ℤ) : roundHalfEven (k : ℚ) = k := by
  simp [roundHalfEven]

theorem floor_le_roundHalfEven (q : ℚ) : ⌊q⌋ ≤ roundHalfEven q := by
  unfold roundHalfEven
  split_ifs <;> omega

theorem roundHalfEven_le_floor_add_one (q : ℚ) : roundHalfEven q ≤ ⌊q⌋ + 1 := by
  unfold roundHalfEven
  split_ifs <;> omega

theorem roundHalfEven_mono {a b : ℚ} (h : a ≤ b) : roundHalfEven a ≤ roundHalfEven b := by
  rcases lt_or_eq_of_le (Int.floor_mono h) with hf | hf
  · calc roundHalfEven a ≤ ⌊a⌋ + 1 := roundHalfEven_le_floor_add_one a
      _ ≤ ⌊b⌋ := by omega
      _ ≤ roundHalfEven b := floor_le_roundHalfEven b
  · unfold roundHalfEven
    rw [hf]
    split_ifs <;> try omega
    all_goals (exfalso; linarith)

theorem pyRound_mono {a b : ℚ} (n : ℕ) (h : a ≤ b) : pyRound a n ≤ pyRound b n := by
  unfold pyRound
  have h10 : (0 : ℚ) < 10 ^ n := by positivity
  apply (div_le_div_iff_of_pos_right h10).mpr
  exact_mod_cast roundHalfEven_mono (mul_le_mul_of_nonneg_right h (le_of_lt h10))

theorem pyRound_pyRound (q : ℚ) (n : ℕ) : pyRound (pyRound q n) n = pyRound q n := by
  unfold pyRound
  rw [div_mul_cancel₀ _ (by positivity : (10 : ℚ) ^ n ≠ 0), roundHalfEven_intCast]

theorem pyRound_le_of_lt {d m : ℚ} (n : ℕ) (h : d < pyRound m n) :
    pyRound d n ≤ pyRound m n := by
  have h2 := pyRound_mono n (le_of_lt h)
  rwa [pyRound_pyRound] at h2

theorem pyRound_eq_of_between {d m : ℚ} (n : ℕ) (h1 : pyRound m n ≤ d) (h2 : d ≤ m) :
    pyRound d n = pyRound m n := by
  apply le_antisymm (pyRound_mono n h2)
  have h3 := pyRound_mono n h1
  rwa [pyRound_pyRound] at h3

/-- C3: for every bounding-box width `width_px > 0`, real-world width
`real_width_m > 0` and focal length `focal_px > 0`, `get_distance_meters`
returns the pinhole-camera estimate `(real_width_m * focal_px) / width_px`. -/
theorem C3_pinhole_distance (width_px real_width_m focal_px : ℚ)
    (hw : 0 < width_px) (hr : 0 < real_width_m) (hf : 0 < focal_px) :
    get_distance_meters width_px real_width_m focal_px
      = (real_width_m * focal_px) / width_px := by
  unfold get_distance_meters
  rw [if_neg]
  push_neg
  exact ⟨hw, hf, hr⟩

theorem C3_pinhole_distance_witness :
    (0 : ℚ) < 2 ∧ (0 : ℚ) < 1 ∧ (0 : ℚ) < 4
      ∧ get_distance_meters 2 1 4 = (1 * 4) / 2 :=
  ⟨by norm_num, by norm_num, by norm_num,
    C3_pinhole_distance 2 1 4 (by norm_num) (by norm_num) (by norm_num)⟩

/-- C8: the distance and speed formulas never divide by zero.
`get_distance_meters` returns `0` whenever any input is nonpositive and
divides (by the then-nonzero `width_px`) only otherwise, and the speed update
leaves the tracker untouched — performing no division — whenever the elapsed
time `now - e.t` is not strictly positive; when it does divide, the divisor is
nonzero. -/
theorem C8_division_guards :
    (∀ width_px real_width_m focal_px : ℚ,
        width_px ≤ 0 ∨ real_width_m ≤ 0 ∨ focal_px ≤ 0 →
        get_distance_meters width_px real_width_m focal_px = 0)
  ∧ (∀ width_px real_width_m focal_px : ℚ,
        0 < width_px → 0 < real_width_m → 0 < focal_px →
        width_px ≠ 0 ∧ get_distance_meters width_px real_width_m focal_px
          = (real_width_m * focal_px) / width_px)
  ∧ (∀ (now : ℚ) (e : SpeedEntry), e.t < now → ((now - e.t : ℚ) : ℝ) ≠ 0)
  ∧ (∀ (frameW : ℚ) (fid : ℕ) (now : ℚ) (s : LoopState) (d : Detection) (e : SpeedEntry),
        s.speed_tracker d.label = some e → ¬ e.t < now →
        (detStep frameW fid now s d).speed_tracker = s.speed_tracker) := by
  refine ⟨?_, ?_, ?_, ?_⟩
  · intro w r f h
    unfold get_distance_meters
    rw [if_pos]
    tauto
  · intro w r f hw hr hf
    exact ⟨ne_of_gt hw, C3_pinhole_distance w r f hw hr hf⟩
  · intro now e h
    have h2 : (0 : ℚ) < now - e.t := by linarith
    exact_mod_cast ne_of_gt (by exact_mod_cast h2 : (0 : ℝ) < ((now - e.t : ℚ) : ℝ))
  · intro frameW fid now s d e he hlt
    simp only [detStep]
    show speedUpdate s.speed_tracker d.label _ _ now = s.speed_tracker
    unfold speedUpdate
    rw [he]
    simp [hlt]

theorem C8_division_guards_witness :
    (((-1 : ℚ) ≤ 0 ∨ (1 : ℚ) ≤ 0 ∨ (1 : ℚ) ≤ 0) ∧ get_distance_meters (-1) 1 1 = 0)
  ∧ (sampleTrackedState.speed_tracker sampleDet.label = some sampleEntry
      ∧ ¬ sampleEntry.t < (0 : ℚ)
      ∧ (detStep 2304 0 0 sampleTrackedState sampleDet).speed_tracker
          = sampleTrackedState.speed_tracker) :=
  ⟨⟨Or.inl (by norm_num), C8_division_guards.1 (-1) 1 1 (Or.inl (by norm_num))⟩,
    rfl, by norm_num [sampleEntry],
    C8_division_guards.2.2.2 2304 0 0 sampleTrackedState sampleDet sampleEntry rfl
      (by norm_num [sampleEntry])⟩

/-- C4: speed-tracker behaviour of the per-detection step. On a label already
tracked, with strictly positive elapsed time `dt = now - pt`, the recorded
speed becomes `sqrt((cx-px)^2 + (cy-py)^2) * 0.02 / dt`; on the first
detection of a label the recorded speed is `0.0`; with nonpositive elapsed
time the entry — in particular the recorded speed — is kept unchanged. -/
theorem C4_speed_update (frameW : ℚ) (fid : ℕ) (now : ℚ) (s : LoopState) (d : Detection) :
    (s.speed_tracker d.label = none →
        (detStep frameW fid now s d).speed_tracker d.label
          = some { px := (centerOf d).1, py := (centerOf d).2, t := now, speed := 0 })
  ∧ (∀ e : SpeedEntry, s.speed_tracker d.label = some e → e.t < now →
        (detStep frameW fid now s d).speed_tracker d.label
          = some { px := (centerOf d).1, py := (centerOf d).2, t := now,
                   speed := Real.sqrt ((((centerOf d).1 - e.px : ℤ) : ℝ) ^ 2
                       + (((centerOf d).2 - e.py : ℤ) : ℝ) ^ 2) * 0.02
                     / ((now - e.t : ℚ) : ℝ) })
  ∧ (∀ e : SpeedEntry, s.speed_tracker d.label = some e → ¬ e.t < now →
        (detStep frameW fid now s d).speed_tracker d.label = some e) := by
  have hst : (detStep frameW fid now s d).speed_tracker
      = speedUpdate s.speed_tracker d.label (centerOf d).1 (centerOf d).2 now := rfl
  refine ⟨?_, ?_, ?_⟩
  · intro h
    rw [hst]
    unfold speedUpdate
    rw [h]
    simp
  · intro e he hlt
    rw [hst]
    unfold speedUpdate
    rw [he]
    simp [hlt]
  · intro e he hlt
    rw [hst]
    unfold speedUpdate
    rw [he]
    simp [hlt, he]

theorem C4_speed_update_witness :
    (initState.speed_tracker sampleDet.label = none
      ∧ (detStep 2304 0 0 initState sampleDet).speed_tracker sampleDet.label
          = some { px := (centerOf sampleDet).1, py := (centerOf sampleDet).2,
                   t := 0, speed := 0 })
  ∧ (sampleTrackedState.speed_tracker sampleDet.label = some sampleEntry
      ∧ sampleEntry.t < (1 : ℚ)
      ∧ (detStep 2304 0 1 sampleTrackedState sampleDet).speed_tracker sampleDet.label
          = some { px := (centerOf sampleDet).1, py := (centerOf sampleDet).2, t := 1,
                   speed := Real.sqrt ((((centerOf sampleDet).1 - sampleEntry.px : ℤ) : ℝ) ^ 2
                       + (((centerOf sampleDet).2 - sampleEntry.py : ℤ) : ℝ) ^ 2) * 0.02
                     / ((1 - sampleEntry.t : ℚ) : ℝ) }) :=
  ⟨⟨rfl, (C4_speed_update 2304 0 0 initState sampleDet).1 rfl⟩,
    rfl, by norm_num [sampleEntry],
    (C4_speed_update 2304 0 1 sampleTrackedState sampleDet).2.1 sampleEntry rfl
      (by norm_num [sampleEntry])⟩

theorem dequeAppend_length_le {α : Type} (m : ℕ) (l : List α) (p : α) :
    (dequeAppend m l p).length ≤ m := by
  unfold dequeAppend
  simp only [List.length_drop, List.length_append, List.length_singleton]
  omega

theorem detStep_trajectories (frameW : ℚ) (fid : ℕ) (now : ℚ) (s : LoopState) (d : Detection) :
    (detStep frameW fid now s d).trajectories
      = trajUpdate s.trajectories d.label (trailPoint frameW d) := rfl

theorem frameStep_state (frameW : ℚ) (ts : ℕ → String) (r : RunState) (f : Frame) :
    (frameStep frameW ts r f).state
      = prune (f.dets.foldl (detStep frameW r.fid f.time) r.state) f.dets := by
  simp only [frameStep]
  split <;> rfl

theorem frameStep_fid (frameW : ℚ) (ts : ℕ → String) (r : RunState) (f : Frame) :
    (frameStep frameW ts r f).fid = r.fid + 1 := by
  simp only [frameStep]
  split <;> rfl

theorem runLoop_append_one (frameW : ℚ) (ts : ℕ → String) (log0 : List (String × LogVal))
    (fs : List Frame) (f : Frame) :
    runLoop frameW ts log0 (fs ++ [f]) = frameStep frameW ts (runLoop frameW ts log0 fs) f := by
  unfold runLoop
  rw [List.foldl_append]
  rfl

theorem trailsBounded_detStep (frameW : ℚ) (fid : ℕ) (now : ℚ) (s : LoopState) (d : Detection)
    (h : ∀ l trail, s.trajectories l = some trail → trail.length ≤ MAX_TRAIL) :
    ∀ l trail, (detStep frameW fid now s d).trajectories l = some trail →
      trail.length ≤ MAX_TRAIL := by
  intro l trail htr
  rw [detStep_trajectories] at htr
  simp only [trajUpdate] at htr
  by_cases hl : l = d.label
  · rw [if_pos hl] at htr
    obtain rfl := Option.some.inj htr.symm
    exact dequeAppend_length_le _ _ _
  · rw [if_neg hl] at htr
    exact h l trail htr

theorem trailsBounded_foldl (frameW : ℚ) (fid : ℕ) (now : ℚ) (dets : List Detection) :
    ∀ s : LoopState, (∀ l trail, s.trajectories l = some trail → trail.length ≤ MAX_TRAIL) →
      ∀ l trail, (dets.foldl (detStep frameW fid now) s).trajectories l = some trail →
        trail.length ≤ MAX_TRAIL := by
  induction dets with
  | nil => exact fun s h => h
  | cons d rest ih => exact fun s h => ih _ (trailsBounded_detStep frameW fid now s d h)

theorem trailsBounded_prune (s : LoopState) (dets : List Detection)
    (h : ∀ l trail, s.trajectories l = some trail → trail.length ≤ MAX_TRAIL) :
    ∀ l trail, (prune s dets).trajectories l = some trail → trail.length ≤ MAX_TRAIL := by
  intro l trail htr
  simp only [prune] at htr
  by_cases hp : dets.any (fun d => d.label == l)
  · rw [if_pos hp] at htr
    exact h l trail htr
  · rw [if_neg hp] at htr
    exact absurd htr (by simp)

theorem trailsBounded_runLoop (frameW : ℚ) (ts : ℕ → String) (log0 : List (String × LogVal)) :
    ∀ fs : List Frame, ∀ l trail,
      (runLoop frameW ts log0 fs).state.trajectories l = some trail →
        trail.length ≤ MAX_TRAIL := by
  intro fs
  induction fs using List.reverseRecOn with
  | nil => intro l trail h; exact absurd h (by simp [runLoop, initState])
  | append_singleton fs f ih =>
      intro l trail h
      rw [runLoop_append_one, frameStep_state] at h
      exact trailsBounded_prune _ _
        (trailsBounded_foldl _ _ _ _ _ ih) l trail h

/-- C5: after any run of the capture loop every stored per-label trajectory
trail holds at most `MAX_TRAIL = 30` points, and appending to a full buffer
discards the oldest (leftmost) point. -/
theorem C5_trail_bound (frameW : ℚ) (ts : ℕ → String) (log0 : List (String × LogVal))
    (fs : List Frame) (l : SpLabel) (trail : List (ℤ × ℤ))
    (h : (runLoop frameW ts log0 fs).state.trajectories l = some trail) :
    trail.length ≤ MAX_TRAIL
  ∧ ∀ (tl : List (ℤ × ℤ)) (p : ℤ × ℤ), tl.length = MAX_TRAIL →
      dequeAppend MAX_TRAIL tl p = tl.tail ++ [p] := by
  refine ⟨trailsBounded_runLoop frameW ts log0 fs l trail h, ?_⟩
  intro tl p hlen
  simp only [dequeAppend]
  have h1 : (tl ++ [p]).length - MAX_TRAIL = 1 := by
    simp only [List.length_append, List.length_singleton, hlen]
    omega
  rw [h1, List.drop_append_of_le_length (by rw [hlen]; norm_num [MAX_TRAIL]), List.drop_one]

theorem C5_trail_bound_witness :
    ((runLoop 300 tsSample [] [⟨[sampleDet], 0⟩]).state.trajectories SpLabel.fly
        = some [((150 : ℤ), (20 : ℤ))])
  ∧ (([((150 : ℤ), (20 : ℤ))] : List (ℤ × ℤ)).length ≤ MAX_TRAIL
      ∧ ∀ (tl : List (ℤ × ℤ)) (p : ℤ × ℤ), tl.length = MAX_TRAIL →
          dequeAppend MAX_TRAIL tl p = tl.tail ++ [p]) := by
  have h : (runLoop 300 tsSample [] [⟨[sampleDet], 0⟩]).state.trajectories SpLabel.fly
      = some [((150 : ℤ), (20 : ℤ))] := by
    show (frameStep 300 tsSample
        { state := initState, fid := 0, json := [], saves := [] }
        ⟨[sampleDet], 0⟩).state.trajectories SpLabel.fly = _
    rw [frameStep_state]
    simp only [List.foldl, detStep_trajectories, prune, detStep]
    norm_num [sampleDet, trajUpdate, trailPoint, centerOf, truncQ, dequeAppend,
      RADAR_MAX_R, RADAR_SIZE, RADAR_RANGE_M, MAX_TRAIL, Int.fdiv, initState]
  exact ⟨h, C5_trail_bound 300 tsSample [] [⟨[sampleDet], 0⟩] SpLabel.fly
    [((150 : ℤ), (20 : ℤ))] h⟩

theorem frameStep_saves (frameW : ℚ) (ts : ℕ → String) (r : RunState) (f : Frame) :
    (frameStep frameW ts r f).saves
      = if (r.fid + 1) % 30 = 0
        then r.saves ++ [(r.fid + 1,
          snapshotOf (prune (f.dets.foldl (detStep frameW r.fid f.time) r.state)
            f.dets).species_summary)]
        else r.saves := by
  simp only [frameStep]
  split <;> rfl

theorem runLoop_fid (frameW : ℚ) (ts : ℕ → String) (log0 : List (String × LogVal)) :
    ∀ fs : List Frame, (runLoop frameW ts log0 fs).fid = fs.length := by
  intro fs
  induction fs using List.reverseRecOn with
  | nil => rfl
  | append_singleton fs f ih =>
      rw [runLoop_append_one, frameStep_fid, ih]
      simp

theorem runLoop_saves_fids (frameW : ℚ) (ts : ℕ → String) (log0 : List (String × LogVal)) :
    ∀ fs : List Frame,
      (runLoop frameW ts log0 fs).saves.map Prod.fst
        = ((List.range fs.length).map (fun i => i + 1)).filter (fun n => n % 30 == 0) := by
  intro fs
  induction fs using List.reverseRecOn with
  | nil => rfl
  | append_singleton fs f ih =>
      rw [runLoop_append_one, frameStep_saves, runLoop_fid]
      have hr : (fs ++ [f]).length = fs.length + 1 := by simp
      rw [hr, List.range_succ]
      by_cases h : (fs.length + 1) % 30 = 0
      · rw [if_pos h]
        simp only [List.map_append, List.filter_append, List.map_map]
        rw [ih]
        simp [h]
      · rw [if_neg h]
        simp only [List.map_append, List.filter_append]
        rw [ih]
        simp [h]

/-- C6: during the capture loop a species-summary snapshot is serialized
exactly when the frame counter reaches a positive multiple of 30 — never at
any other frame — and one final snapshot is written when the loop exits. -/
theorem C6_save_schedule (frameW : ℚ) (ts : ℕ → String) (tsf : String)
    (log0 : List (String × LogVal)) (fs : List Frame) :
    (runProgram frameW ts tsf log0 fs).saves.map Prod.fst
      = ((List.range fs.length).map (fun i => i + 1)).filter (fun n => n % 30 == 0)
        ++ [fs.length] := by
  unfold runProgram finalizeRun
  simp only [List.map_append]
  rw [runLoop_saves_fids]
  simp [runLoop_fid]

theorem minQ_append_one (ds : List ℚ) (d : ℚ) : minQ (ds ++ [d]) = minQStep (minQ ds) d := by
  unfold minQ
  rw [List.foldl_append]
  rfl

theorem allDistances_append (fs gs : List Frame) :
    allDistances (fs ++ gs) = allDistances fs ++ allDistances gs := by
  induction fs with
  | nil => simp [allDistances]
  | cons g fs2 ih => simp [allDistances, ih]

theorem minQ_foldl_le (e : List ℚ) :
    ∀ m : ℚ, ∃ m2, e.foldl minQStep (some m) = some m2 ∧ m2 ≤ m := by
  induction e with
  | nil => exact fun m => ⟨m, rfl, le_refl m⟩
  | cons d rest ih =>
      intro m
      obtain ⟨m2, h1, h2⟩ := ih (min m d)
      exact ⟨m2, by simpa [minQStep] using h1, le_trans h2 (min_le_left m d)⟩

theorem nearestUpdate_distance_none (ne : NearestEnc) (fid : ℕ) (l : SpLabel)
    (dq aq : ℚ) (h : ne.distance_m = none) :
    (nearestUpdate ne fid l dq aq).distance_m = some (pyRound dq 3) := by
  unfold nearestUpdate
  rw [h]
  rfl

theorem nearestUpdate_distance_some (ne : NearestEnc) (fid : ℕ) (l : SpLabel)
    (dq aq m3 : ℚ) (h : ne.distance_m = some m3) :
    (nearestUpdate ne fid l dq aq).distance_m
      = if dq < m3 then some (pyRound dq 3) else some m3 := by
  unfold nearestUpdate
  rw [h]
  by_cases hlt : dq < m3
  · simp [hlt]
  · simp [hlt, h]

theorem nearestUpdate_distance_char (ne : NearestEnc) (fid : ℕ) (l : SpLabel)
    (dq aq : ℚ) (ds : List ℚ)
    (h : ne.distance_m = (minQ ds).map (fun m => pyRound m 3)) :
    (nearestUpdate ne fid l dq aq).distance_m
      = (minQ (ds ++ [dq])).map (fun m => pyRound m 3) := by
  rw [minQ_append_one]
  cases hm : minQ ds with
  | none =>
      rw [hm] at h
      simp only [Option.map_none'] at h
      rw [nearestUpdate_distance_none ne fid l dq aq h]
      simp [minQStep]
  | some m =>
      rw [hm] at h
      simp only [Option.map_some'] at h
      rw [nearestUpdate_distance_some ne fid l dq aq (pyRound m 3) h]
      simp only [minQStep, Option.map_some']
      by_cases hlt : dq < pyRound m 3
      · rw [if_pos hlt]
        by_cases hdm : dq ≤ m
        · rw [min_eq_right hdm]
        · have hmd : m ≤ dq := le_of_lt (not_le.mp hdm)
          rw [min_eq_left hmd]
          congr 1
          exact le_antisymm (pyRound_le_of_lt 3 hlt) (pyRound_mono 3 hmd)
      · rw [if_neg hlt]
        have hge : pyRound m 3 ≤ dq := not_lt.mp hlt
        by_cases hdm : m ≤ dq
        · rw [min_eq_left hdm]
        · have hdmlt : dq ≤ m := le_of_lt (not_le.mp hdm)
          rw [min_eq_right hdmlt]
          exact congrArg some (pyRound_eq_of_between 3 hge hdmlt).symm

theorem detStep_nearest (frameW : ℚ) (fid : ℕ) (now : ℚ) (s : LoopState) (d : Detection) :
    (detStep frameW fid now s d).nearest_encounter
      = nearestUpdate s.nearest_encounter fid d.label d.distance_m (angleOf frameW d) := rfl

theorem foldl_nearest_char (frameW : ℚ) (fid : ℕ) (now : ℚ) (dets : List Detection) :
    ∀ (s : LoopState) (ds : List ℚ),
      s.nearest_encounter.distance_m = (minQ ds).map (fun m => pyRound m 3) →
      (dets.foldl (detStep frameW fid now) s).nearest_encounter.distance_m
        = (minQ (ds ++ dets.map Detection.distance_m)).map (fun m => pyRound m 3) := by
  induction dets with
  | nil => intro s ds h; simpa using h
  | cons d rest ih =>
      intro s ds h
      have h2 : (detStep frameW fid now s d).nearest_encounter.distance_m
          = (minQ (ds ++ [d.distance_m])).map (fun m => pyRound m 3) := by
        rw [detStep_nearest]
        exact nearestUpdate_distance_char _ _ _ _ _ _ h
      have h3 := ih (detStep frameW fid now s d) (ds ++ [d.distance_m]) h2
      simpa [List.append_assoc] using h3

theorem runLoop_nearest_char (frameW : ℚ) (ts : ℕ → String)
    (log0 : List (String × LogVal)) :
    ∀ fs : List Frame,
      (runLoop frameW ts log0 fs).state.nearest_encounter.distance_m
        = (minQ (allDistances fs)).map (fun m => pyRound m 3) := by
  intro fs
  induction fs using List.reverseRecOn with
  | nil => rfl
  | append_singleton fs f ih =>
      rw [runLoop_append_one, frameStep_state]
      have hp : (prune (f.dets.foldl
            (detStep frameW (runLoop frameW ts log0 fs).fid f.time)
            (runLoop frameW ts log0 fs).state) f.dets).nearest_encounter
          = (f.dets.foldl (detStep frameW (runLoop frameW ts log0 fs).fid f.time)
              (runLoop frameW ts log0 fs).state).nearest_encounter := rfl
      rw [hp, foldl_nearest_char frameW _ f.time f.dets _ (allDistances fs) ih,
        allDistances_append]
      simp [allDistances]

/-- C1 (amended): the stored `nearest_encounter` distance is a running minimum
in the rounded sense: it never increases as the run extends, and at every
point it equals the 3-decimal Python rounding of the smallest raw detection
distance observed so far (`none` plays the initial `float('inf')` before any
detection). Because of the rounding, it is the rounded minimum — not the raw
minimum, and the label/frame/angle fields need not come from the globally
closest detection. -/
theorem C1_nearest_running_min (frameW : ℚ) (ts : ℕ → String)
    (log0 : List (String × LogVal)) (fs gs : List Frame) :
    nearestLe ((runLoop frameW ts log0 (fs ++ gs)).state.nearest_encounter.distance_m)
        ((runLoop frameW ts log0 fs).state.nearest_encounter.distance_m)
  ∧ (runLoop frameW ts log0 fs).state.nearest_encounter.distance_m
      = (minQ (allDistances fs)).map (fun m => pyRound m 3) := by
  refine ⟨?_, runLoop_nearest_char frameW ts log0 fs⟩
  rw [runLoop_nearest_char, runLoop_nearest_char, allDistances_append]
  cases hA : minQ (allDistances fs) with
  | none => simp [nearestLe]
  | some m =>
      have hB : minQ (allDistances fs ++ allDistances gs)
          = (allDistances gs).foldl minQStep (some m) := by
        unfold minQ
        rw [List.foldl_append]
        congr 1
      obtain ⟨m2, h1, h2⟩ := minQ_foldl_le (allDistances gs) m
      rw [hB, h1]
      simpa [nearestLe] using pyRound_mono 3 h2

/-- C1 counterexample: a single detection (a 778-pixel-wide fly box) has raw
distance `48/389 ≈ 0.12339` m, yet the stored nearest-encounter distance is
the rounded `0.123`, so the record does not equal the smallest raw detection
distance observed. -/
theorem C1_counterexample :
    (runLoop 2304 tsSample []
        [⟨[detectionOf 0 0 778 20 SpLabel.fly 1], 0⟩]).state.nearest_encounter.distance_m
      = some (123/1000)
  ∧ allDistances [⟨[detectionOf 0 0 778 20 SpLabel.fly 1], 0⟩] = [48/389]
  ∧ ((123 : ℚ)/1000) ≠ 48/389 := by
  have hdist : allDistances [⟨[detectionOf 0 0 778 20 SpLabel.fly 1], 0⟩] = [48/389] := by
    norm_num [allDistances, detectionOf, get_distance_meters, REAL_WIDTHS_M,
      FOCAL_LENGTH_PIXELS]
  refine ⟨?_, hdist, by norm_num⟩
  rw [runLoop_nearest_char, hdist]
  have hf : ⌊(48000/389 : ℚ)⌋ = 123 := by
    rw [Int.floor_eq_iff]
    norm_num
  have hr : pyRound (48/389) 3 = 123/1000 := by
    unfold pyRound roundHalfEven
    have harg : (48/389 : ℚ) * 10 ^ 3 = 48000/389 := by norm_num
    rw [harg, hf]
    norm_num
  simp [minQ, minQStep, hr]

theorem summaryUpdate_self (ss : SpLabel → Option SpeciesInfo) (l : SpLabel)
    (angle dist : ℚ) :
    summaryUpdate ss l angle dist l
      = some (match ss l with
          | none =>
              { count := 1
                entry_angle_deg := pyRound angle 1
                exit_angle_deg := pyRound angle 1
                entry_distance_m := pyRound dist 2
                exit_distance_m := pyRound dist 2 }
          | some i =>
              { i with
                count := i.count + 1
                exit_angle_deg := pyRound angle 1
                exit_distance_m := pyRound dist 2 }) := by
  unfold summaryUpdate
  cases ss l <;> simp

theorem summaryUpdate_other (ss : SpLabel → Option SpeciesInfo) (l : SpLabel)
    (angle dist : ℚ) (l2 : SpLabel) (h : l2 ≠ l) :
    summaryUpdate ss l angle dist l2 = ss l2 := by
  unfold summaryUpdate
  simp [h]

theorem summarySpec_append_one (frameW : ℚ) (ds : List Detection) (d : Detection) :
    summarySpec frameW (ds ++ [d])
      = some (match summarySpec frameW ds with
          | none =>
              { count := 1
                entry_angle_deg := pyRound (angleOf frameW d) 1
                exit_angle_deg := pyRound (angleOf frameW d) 1
                entry_distance_m := pyRound d.distance_m 2
                exit_distance_m := pyRound d.distance_m 2 }
          | some i =>
              { i with
                count := i.count + 1
                exit_angle_deg := pyRound (angleOf frameW d) 1
                exit_distance_m := pyRound d.distance_m 2 }) := by
  cases ds with
  | nil => rfl
  | cons d0 rest => simp [summarySpec, List.getLastD_concat]

theorem detStep_summary (frameW : ℚ) (fid : ℕ) (now : ℚ) (s : LoopState) (d : Detection) :
    (detStep frameW fid now s d).species_summary
      = summaryUpdate s.species_summary d.label (angleOf frameW d) d.distance_m := rfl

theorem foldl_summary_char (frameW : ℚ) (fid : ℕ) (now : ℚ) (dets : List Detection) :
    ∀ (s : LoopState) (A : SpLabel → List Detection),
      (∀ l, s.species_summary l = summarySpec frameW (A l)) →
      ∀ l, (dets.foldl (detStep frameW fid now) s).species_summary l
        = summarySpec frameW (A l ++ dets.filter (fun d2 => d2.label == l)) := by
  induction dets with
  | nil => intro s A h l; simpa using h l
  | cons d rest ih =>
      intro s A h l
      have hstep : ∀ l2, (detStep frameW fid now s d).species_summary l2
          = summarySpec frameW (if l2 = d.label then A l2 ++ [d] else A l2) := by
        intro l2
        rw [detStep_summary]
        by_cases hl : l2 = d.label
        · rw [hl, if_pos rfl, summaryUpdate_self, h d.label, summarySpec_append_one]
        · rw [summaryUpdate_other _ _ _ _ _ hl, if_neg hl]
          exact h l2
      have h2 := ih (detStep frameW fid now s d)
        (fun l3 => if l3 = d.label then A l3 ++ [d] else A l3) hstep l
      by_cases hl : l = d.label
      · have hb : (d.label == l) = true := beq_iff_eq.mpr hl.symm
        simp only [List.foldl_cons] at h2 ⊢
        rw [h2, if_pos hl, List.filter_cons, hb]
        simp [List.append_assoc]
      · have hb : (d.label == l) = false := beq_eq_false_iff_ne.mpr (fun h3 => hl h3.symm)
        simp only [List.foldl_cons] at h2 ⊢
        rw [h2, if_neg hl, List.filter_cons, hb]
        simp

theorem labelDets_append_one (fs : List Frame) (f : Frame) (l : SpLabel) :
    labelDets (fs ++ [f]) l = labelDets fs l ++ f.dets.filter (fun d => d.label == l) := by
  induction fs with
  | nil => simp [labelDets]
  | cons g gs ih => simp [labelDets, ih]

theorem runLoop_summary_char (frameW : ℚ) (ts : ℕ → String)
    (log0 : List (String × LogVal)) :
    ∀ (fs : List Frame) (l : SpLabel),
      (runLoop frameW ts log0 fs).state.species_summary l
        = summarySpec frameW (labelDets fs l) := by
  intro fs
  induction fs using List.reverseRecOn with
  | nil => intro l; rfl
  | append_singleton fs f ih =>
      intro l
      rw [runLoop_append_one, frameStep_state]
      have hp : (prune (f.dets.foldl
            (detStep frameW (runLoop frameW ts log0 fs).fid f.time)
            (runLoop frameW ts log0 fs).state) f.dets).species_summary
          = (f.dets.foldl (detStep frameW (runLoop frameW ts log0 fs).fid f.time)
              (runLoop frameW ts log0 fs).state).species_summary := rfl
      rw [hp, foldl_summary_char frameW _ f.time f.dets _ (labelDets fs) (fun l2 => ih l2) l,
        labelDets_append_one]

theorem snapshot_summarySpec (frameW : ℚ) (ds : List Detection) :
    (summarySpec frameW ds).map snapEntryOf = snapSpec frameW ds := by
  cases ds with
  | nil => rfl
  | cons d rest => simp [summarySpec, snapSpec, snapEntryOf, pyRound_pyRound]

theorem snapshotOf_apply (ss : SpLabel → Option SpeciesInfo) (l : SpLabel) :
    snapshotOf ss l = (ss l).map snapEntryOf := rfl

theorem runLoop_saves_snap (frameW : ℚ) (ts : ℕ → String)
    (log0 : List (String × LogVal)) :
    ∀ fs : List Frame, ∀ p ∈ (runLoop frameW ts log0 fs).saves,
      p.1 ≤ fs.length
    ∧ ∀ l, p.2 l = snapSpec frameW (labelDets (fs.take p.1) l) := by
  intro fs
  induction fs using List.reverseRecOn with
  | nil => intro p hp; exact absurd hp (by simp [runLoop])
  | append_singleton fs f ih =>
      intro p hp
      rw [runLoop_append_one, frameStep_saves, runLoop_fid] at hp
      have hnew : ∀ l, snapshotOf (prune (f.dets.foldl
            (detStep frameW fs.length f.time)
            (runLoop frameW ts log0 fs).state) f.dets).species_summary l
          = snapSpec frameW (labelDets (fs ++ [f]) l) := by
        intro l
        have hs : (prune (f.dets.foldl
              (detStep frameW fs.length f.time)
              (runLoop frameW ts log0 fs).state) f.dets).species_summary
            = (runLoop frameW ts log0 (fs ++ [f])).state.species_summary := by
          rw [runLoop_append_one, frameStep_state, runLoop_fid]
        rw [snapshotOf_apply, hs, runLoop_summary_char, snapshot_summarySpec]
      by_cases hmod : (fs.length + 1) % 30 = 0
      · rw [if_pos hmod] at hp
        rcases List.mem_append.mp hp with hin | hfin
        · obtain ⟨h1, h2⟩ := ih p hin
          refine ⟨by simp; omega, ?_⟩
          intro l
          rw [h2 l, List.take_append_of_le_length h1]
        · rw [List.mem_singleton] at hfin
          subst hfin
          refine ⟨by simp, ?_⟩
          intro l
          have hlen : (fs ++ [f]).take (fs.length + 1) = fs ++ [f] := by
            apply List.take_of_length_le
            simp
          rw [hlen]
          exact hnew l
      · rw [if_neg hmod] at hp
        obtain ⟨h1, h2⟩ := ih p hp
        refine ⟨by simp; omega, ?_⟩
        intro l
        rw [h2 l, List.take_append_of_le_length h1]

theorem lookup_dictInsert_self {α : Type} (l : List (String × α)) (k : String) (v : α) :
    List.lookup k (dictInsert l k v) = some v := by
  induction l with
  | nil => simp [dictInsert, List.lookup]
  | cons p rest ih =>
      obtain ⟨pk, pv⟩ := p
      by_cases hp : pk = k
      · simp [dictInsert, hp, List.lookup]
      · have hk : (k == pk) = false := beq_eq_false_iff_ne.mpr (Ne.symm hp)
        simp [dictInsert, hp, List.lookup, hk, ih]

theorem lookup_dictInsert_ne {α : Type} (l : List (String × α)) {k k2 : String} (v : α)
    (h : k2 ≠ k) : List.lookup k2 (dictInsert l k v) = List.lookup k2 l := by
  induction l with
  | nil => simp [dictInsert, List.lookup, beq_eq_false_iff_ne.mpr h]
  | cons p rest ih =>
      obtain ⟨pk, pv⟩ := p
      by_cases hp : pk = k
      · subst hp
        simp [dictInsert, List.lookup, beq_eq_false_iff_ne.mpr h]
      · simp only [dictInsert, hp, if_false, ite_false]
        simp [List.lookup, ih]

/-- C2: every snapshot serialized by the run (the periodic ones and the final
one) is keyed by an externally supplied timestamp and maps each detected
insect label to exactly the five fields `start_distance_m`, `end_distance_m`,
`start_angle_deg`, `end_angle_deg` and `count` (the `SnapEntry` record),
where `count` is the total number of detections of that label since program
start, the `start_*` fields are the rounded distance and angle of the first
detection of that label and the `end_*` fields those of the most recent one;
labels never detected are absent. In addition the final log contains the
reserved `nearest_encounter` key. -/
theorem C2_snapshot_schema (frameW : ℚ) (ts : ℕ → String) (tsf : String)
    (log0 : List (String × LogVal)) (fs : List Frame)
    (k : ℕ) (snap : Snapshot)
    (hmem : (k, snap) ∈ (runProgram frameW ts tsf log0 fs).saves) (l : SpLabel) :
    snap l = snapSpec frameW (labelDets (fs.take k) l)
  ∧ List.lookup "nearest_encounter" (runProgram frameW ts tsf log0 fs).json
      = some (LogVal.nearest (runLoop frameW ts log0 fs).state.nearest_encounter) := by
  constructor
  · have hsaves : (runProgram frameW ts tsf log0 fs).saves
        = (runLoop frameW ts log0 fs).saves
          ++ [((runLoop frameW ts log0 fs).fid,
              snapshotOf (runLoop frameW ts log0 fs).state.species_summary)] := rfl
    rw [hsaves] at hmem
    rcases List.mem_append.mp hmem with hin | hfin
    · exact ((runLoop_saves_snap frameW ts log0 fs) (k, snap) hin).2 l
    · rw [List.mem_singleton, Prod.mk.injEq] at hfin
      obtain ⟨hk, hsnap⟩ := hfin
      rw [runLoop_fid] at hk
      subst hk
      subst hsnap
      rw [List.take_length, snapshotOf_apply, runLoop_summary_char, snapshot_summarySpec]
  · have hjson : (runProgram frameW ts tsf log0 fs).json
        = dictInsert (dictInsert (runLoop frameW ts log0 fs).json tsf
            (LogVal.snap (snapshotOf (runLoop frameW ts log0 fs).state.species_summary)))
          "nearest_encounter"
          (LogVal.nearest (runLoop frameW ts log0 fs).state.nearest_encounter) := rfl
    rw [hjson]
    exact lookup_dictInsert_self _ _ _

theorem C2_snapshot_schema_witness :
    (((0 : ℕ), snapshotOf initState.species_summary)
        ∈ (runProgram 2304 tsSample "2025-01-01T00:00:01" [] []).saves)
  ∧ (snapshotOf initState.species_summary SpLabel.fly
        = snapSpec 2304 (labelDets (List.take 0 []) SpLabel.fly)
      ∧ List.lookup "nearest_encounter"
            (runProgram 2304 tsSample "2025-01-01T00:00:01" [] []).json
          = some (LogVal.nearest
              (runLoop 2304 tsSample [] []).state.nearest_encounter)) := by
  have hmem : ((0 : ℕ), snapshotOf initState.species_summary)
      ∈ (runProgram 2304 tsSample "2025-01-01T00:00:01" [] ([] : List Frame)).saves := by
    show ((0 : ℕ), snapshotOf initState.species_summary)
        ∈ [((0 : ℕ), snapshotOf initState.species_summary)]
    exact List.mem_singleton.mpr rfl
  exact ⟨hmem, C2_snapshot_schema 2304 tsSample "2025-01-01T00:00:01" [] [] 0
    (snapshotOf initState.species_summary) hmem SpLabel.fly⟩

end InsectDetection

namespace OledAndLed

/-- C9: the peripheral wrapper degrades gracefully when hardware is absent:
with `chip = None`, `reset_leds` performs no GPIO writes (and hence raises no
exception from an `lgpio` call), and with `oled = None`, `display_on_oled`
performs no I2C operation for any list of lines (it only prints). -/
theorem C9_peripheral_graceful_degradation :
    reset_leds none = []
  ∧ (∀ lines : List String,
      (display_on_oled none lines).all (fun op => !(isI2cOp op)) = true)
  ∧ (∀ lines : List String, display_on_oled none lines = [DevOp.consolePrint]) :=
  ⟨rfl, fun _ => rfl, fun _ => rfl⟩

end OledAndLed

namespace LlmGui

/-- C10: `load_sessions` returns the empty list, without raising, when the log
file does not exist or its contents fail to parse as JSON — never a partially
constructed session list. -/
theorem C10_load_sessions_error_handling :
    load_sessions LogFile.missing = [] ∧ load_sessions LogFile.unparsable = [] :=
  ⟨rfl, rfl⟩

theorem buildSessions_all_obj (fields : List (String × JVal))
    (h : ∀ p ∈ fields, isObjVal p.2 = true) :
    buildSessions fields
      = some (fields.map (fun p => sessionOf p.1 (objFieldsOf p.2))) := by
  induction fields with
  | nil => rfl
  | cons p rest ih =>
      obtain ⟨ts, v⟩ := p
      have hv := h (ts, v) (by simp)
      cases v with
      | jobj data =>
          simp [buildSessions, objFieldsOf,
            ih (fun q hq => h q (by simp [hq]))]
      | jnull => simp [isObjVal] at hv
      | jbool b => simp [isObjVal] at hv
      | jnum q => simp [isObjVal] at hv
      | jstr s => simp [isObjVal] at hv
      | jarr items => simp [isObjVal] at hv

/-- C7 counterexample: a parsed log whose only top-level key is the reserved
`nearest_encounter` record yields one session although it contains zero
timestamped snapshots, so `load_sessions` does not return exactly one session
per timestamped snapshot stored in the log file. -/
theorem C7_counterexample :
    (load_sessions (LogFile.parsed (JVal.jobj
        [("nearest_encounter", JVal.jobj [("distance_m", JVal.jnum (123/1000))])]))).length
      = 1
  ∧ ([(("nearest_encounter" : String), JVal.jobj [("distance_m", JVal.jnum (123/1000))])].filter
        (fun p => isSnapshotKey p.1)).length = 0 := by
  constructor
  · rfl
  · rfl

/-- C7 (amended): `load_sessions` returns exactly one session per top-level
key of the parsed log — including the reserved `nearest_encounter` key when
present, not only the timestamped snapshots — in file order; each session
carries a `session_info` whose `session_id` and `timestamp` both equal that
key, and a `video_reference` field. -/
theorem C7_sessions_per_key (fields : List (String × JVal))
    (h : ∀ p ∈ fields, isObjVal p.2 = true) :
    load_sessions (LogFile.parsed (JVal.jobj fields))
        = fields.map (fun p => sessionOf p.1 (objFieldsOf p.2))
  ∧ (∀ (ts : String) (data : List (String × JVal)),
        List.lookup "session_info" (sessionOf ts data)
          = some (JVal.jobj [("session_id", JVal.jstr ts), ("timestamp", JVal.jstr ts)])
      ∧ List.lookup "video_reference" (sessionOf ts data)
          = some (JVal.jstr DEFAULT_VIDEO)) := by
  constructor
  · simp [load_sessions, buildSessions_all_obj fields h]
  · intro ts data
    constructor
    · unfold sessionOf
      rw [InsectDetection.lookup_dictInsert_ne _ _ (by decide),
        InsectDetection.lookup_dictInsert_self]
    · exact InsectDetection.lookup_dictInsert_self _ _ _

theorem C7_sessions_per_key_witness :
    (∀ p ∈ [(("2025-01-01T00:00:00" : String), JVal.jobj [])], isObjVal p.2 = true)
  ∧ (load_sessions (LogFile.parsed (JVal.jobj [("2025-01-01T00:00:00", JVal.jobj [])]))
        = [(("2025-01-01T00:00:00" : String), JVal.jobj [])].map
            (fun p => sessionOf p.1 (objFieldsOf p.2))
      ∧ (∀ (ts : String) (data : List (String × JVal)),
            List.lookup "session_info" (sessionOf ts data)
              = some (JVal.jobj [("session_id", JVal.jstr ts), ("timestamp", JVal.jstr ts)])
          ∧ List.lookup "video_reference" (sessionOf ts data)
              = some (JVal.jstr DEFAULT_VIDEO))) := by
  have h : ∀ p ∈ [(("2025-01-01T00:00:00" : String), JVal.jobj [])], isObjVal p.2 = true := by
    intro p hp
    rw [List.mem_singleton] at hp
    subst hp
    rfl
  exact ⟨h, C7_sessions_per_key [("2025-01-01T00:00:00", JVal.jobj [])] h⟩

end LlmGui
